import Mathlib

/-!
Verification development for the comprasnet_data crawler.

The definitions below are shallow embeddings of the Python source files
`componentes.py`, `getdata.py` and `config.py`:

* currency / id / charset sanitisation (`limpa_cifra`, `limpa_cpf_cnpj`,
  `prepara_latin1`, `sanitiza_df`),
* adjudication derivation (`adjudicado`, `adjudicacao`),
* pagination (`_offsets` / `partes` of the `Uasg`, `Pregao`, `Item` classes),
* the fetch client (`request`),
* the two-level worker-pool fan-out (`download_item`, `download_pregao`,
  `download_uasg`),
* the sqlite persistence coordinator (`to_sqlite` coroutine and `salva`).

Machine floats returned by Python's `float()` are modelled as rationals: every
numeric literal the theorems touch is exactly representable, and Python's
`str`/`float` round-trip (`float(str(x)) == x`) is used where the code converts
a float back and forth.  Fallible Python code (raised exceptions) is modelled
with `Option`/`Except`.
-/

set_option autoImplicit false

deriving instance DecidableEq for Except

/-! ### Python helpers: `\s`, `str.strip`-style trimming, `float()` parsing -/

/-- Python's regex class `\s` on the characters that can occur here:
space, tab, newline, carriage return, vertical tab, form feed. -/
def isPySpace (c : Char) : Bool :=
  (c == ' ') || (c == '\t') || (c == '\n') || (c == '\r') ||
    (c == '\x0b') || (c == '\x0c')

/-- Value of a list of decimal digit characters (most significant first),
as computed by Python's integer parsing inside `float()`. -/
def digitsToNat (l : List Char) : Nat :=
  l.foldl (fun a c => 10 * a + (c.toNat - 48)) 0

/-- Whitespace trimming that Python's `float()` applies to both ends of its
argument before parsing. -/
def trimPy (l : List Char) : List Char :=
  ((l.dropWhile isPySpace).reverse.dropWhile isPySpace).reverse

/-- Unsigned part of Python's `float()` grammar restricted to plain decimal
literals: `digits`, `digits.`, `digits.digits`, `.digits`.  Exponents and the
words `inf`/`nan` never arise from the monetary strings this program feeds to
`float()` and are treated as parse failures. -/
def parseUnsigned (l : List Char) : Option ℚ :=
  let ip := l.takeWhile Char.isDigit
  match l.drop ip.length with
  | [] => if ip.isEmpty then none else some (mkRat (digitsToNat ip) 1)
  | c :: fr =>
    if (c == ('.' : Char)) && fr.all Char.isDigit &&
        (!(ip.isEmpty) || !(fr.isEmpty)) then
      some (mkRat (digitsToNat ip * 10 ^ fr.length + digitsToNat fr) (10 ^ fr.length))
    else none

/-- Python's `float(s)`: strip surrounding whitespace, optional sign, then the
unsigned literal.  `none` models a raised `ValueError`. -/
def pyFloat (l : List Char) : Option ℚ :=
  let t := trimPy l
  if t.head? = some ('+' : Char) then parseUnsigned t.tail
  else if t.head? = some ('-' : Char) then (parseUnsigned t.tail).map (fun q => -q)
  else parseUnsigned t

/-! ### `limpa_cifra` (componentes.py lines 67-91)

`re.sub(r'R\$\s*', '', cifra)` is embedded as a two-state scan: the Boolean
flag of `stripCifraGo` is `false` in the normal scanning state and `true`
inside the greedy `\s*` directly after a literal `R$` match (re.sub resumes
scanning right after the consumed whitespace, so a further `R$` there matches
again, and any other non-whitespace character returns to the normal state). -/

/-- Two-state scan implementing `re.sub(r'R\$\s*', '', ·)`. -/
def stripCifraGo : Bool → List Char → List Char
  | _, [] => []
  | skip, [c] => if skip && isPySpace c then [] else [c]
  | skip, c :: d :: rest =>
    if (c == ('R' : Char)) && (d == ('$' : Char)) then stripCifraGo true rest
    else if skip && isPySpace c then stripCifraGo true (d :: rest)
    else c :: stripCifraGo false (d :: rest)

/-- `re.sub(r'R\$\s*', '', ·)`, started in the normal scanning state. -/
def stripCifraA (l : List Char) : List Char := stripCifraGo false l

/-- `limpa_cifra` on the character list of its (stringified) argument:
remove every `R$`-plus-whitespace occurrence, pick the last `,`/`.` as the
decimal separator (defaulting to `.` when there is none, the `IndexError`
branch), normalise, and parse with `float()`.  `none` models the
`ValueError` branch that returns `np.nan`. -/
def limpa_cifra_chars (l : List Char) : Option ℚ :=
  let cifra := stripCifraA l
  let seps := cifra.filter (fun c => (c == (',' : Char)) || (c == ('.' : Char)))
  let sep := seps.getLast?.getD ('.' : Char)
  let norm :=
    if sep == (',' : Char) then
      (cifra.filter (fun c => c != ('.' : Char))).map
        (fun c => if c == (',' : Char) then ('.' : Char) else c)
    else cifra.filter (fun c => c != (',' : Char))
  pyFloat norm

/-- `limpa_cifra` (componentes.py): string-level wrapper. -/
def limpa_cifra (s : String) : Option ℚ := limpa_cifra_chars s.data

/-! ### `limpa_cpf_cnpj` (componentes.py lines 53-64) -/

/-- The character filter of `limpa_cpf_cnpj`'s `re.sub`, which deletes the
characters dot, slash and hyphen. -/
def cpfFilter (l : List Char) : List Char :=
  l.filter (fun c => !((c == ('.' : Char)) || (c == ('/' : Char)) || (c == ('-' : Char))))

/-- `limpa_cpf_cnpj` on a string argument (the `TypeError` branch for
non-string input is handled at cell level). -/
def limpa_cpf_cnpj (s : String) : String := String.mk (cpfFilter s.data)

/-! ### `prepara_latin1` (componentes.py lines 94-110)

The six sequential `re.sub` calls each replace single characters by short
ASCII strings, and no replacement output contains any of the later patterns'
characters, so the whole chain is a single character-wise substitution.
The final `encode('latin1', errors='replace').decode('latin1')` maps every
code point above 255 to `?`. -/

/-- The character-wise substitution performed by the six `re.sub` calls of
`prepara_latin1`: curly double quotes to `"`, curly single quotes to an
apostrophe, en/em dashes to a double hyphen, the trademark sign to `TM`,
the bullet to `*`, and the modifier circumflex to `^`. -/
def substChar (c : Char) : List Char :=
  if (c == ('”' : Char)) || (c == ('“' : Char)) then ['"']
  else if (c == ('’' : Char)) || (c == ('‘' : Char)) then ['\'']
  else if (c == ('–' : Char)) || (c == ('—' : Char)) then ['-', '-']
  else if c == ('™' : Char) then ['T', 'M']
  else if c == ('•' : Char) then ['*']
  else if c == ('ˆ' : Char) then ['^']
  else [c]

/-- `encode('latin1', errors='replace').decode('latin1')` on one character:
anything outside the 8-bit range becomes `?`. -/
def latin1Char (c : Char) : Char := if c.toNat ≤ 255 then c else '?'

/-- `prepara_latin1` on the characters of a string argument. -/
def preparaStr (l : List Char) : List Char :=
  ((l.map substChar).flatten).map latin1Char

/-! ### Table cells and `sanitiza_df` (componentes.py lines 113-137)

A pandas cell is a string, a float, a Timestamp, or a missing marker
(`np.nan` / `NaT`).  Floats and Timestamps are modelled as rationals.
`pd.to_datetime` on a string is kept abstract as a `parseDate` parameter
(`none` models a raised parse error); on a float it produces a Timestamp,
on a Timestamp it is the identity, and on a missing value it yields `NaT`. -/

/-- One pandas cell. -/
inductive Cell where
  | str (s : String)
  | num (q : ℚ)
  | date (d : ℚ)
  | missing
deriving DecidableEq

/-- `prepara_latin1` (componentes.py): the `isinstance(entrada, str)` guard
leaves every non-string cell unchanged. -/
def prepara_latin1 : Cell → Cell
  | .str s => .str (String.mk (preparaStr s.data))
  | c => c

/-- `pd.to_datetime` on one cell; `none` models a raised parse error. -/
def to_datetime_cell (parseDate : String → Option ℚ) : Cell → Option Cell
  | .str s => (parseDate s).map .date
  | .num q => some (.date q)
  | .date d => some (.date d)
  | .missing => some .missing

/-- `limpa_cifra` applied to one cell.  The code first applies `str(...)`:
for a float this round-trips (`float(str(x)) == x` by Python's repr
guarantee), for a Timestamp the resulting text never parses as a float
(`ValueError` branch, hence `np.nan`), and `str(np.nan)` is `"nan"`, whose
`float` is again `nan`. -/
def limpa_cifra_cell : Cell → Cell
  | .str s =>
    match limpa_cifra s with
    | some q => .num q
    | none => .missing
  | .num q => .num q
  | .date _ => .missing
  | .missing => .missing

/-- `limpa_cpf_cnpj` applied to one cell: `re.sub` raises `TypeError` on any
non-string argument, which the code turns into `np.nan`. -/
def limpa_cpf_cnpj_cell : Cell → Cell
  | .str s => .str (String.mk (cpfFilter s.data))
  | _ => .missing

/-- Python's `sub in s` on character lists. -/
def containsSub (pat : List Char) : List Char → Bool
  | [] => pat.isEmpty
  | c :: rest => pat.isPrefixOf (c :: rest) || containsSub pat rest

/-- Column-name test `'Data' in d` of `sanitiza_df`. -/
def isDataName (name : String) : Bool := containsSub ("Data".data) name.data

/-- Column-name test `'Valor' in c` of `sanitiza_df`. -/
def isCifraName (name : String) : Bool := containsSub ("Valor".data) name.data

/-- Column-name test `'cnpj' in x.lower()` of `sanitiza_df`. -/
def isCnpjName (name : String) : Bool :=
  containsSub ("cnpj".data) (name.data.map Char.toLower)

/-- The per-cell pipeline of `sanitiza_df` for a column whose name matched
the given flags, in the order the code applies the column groups:
dates, then currency, then tax ids, then the `applymap` charset pass. -/
def sanitizeCell (d f j : Bool) (parseDate : String → Option ℚ) (c : Cell) :
    Option Cell :=
  match (if d then to_datetime_cell parseDate c else some c) with
  | none => none
  | some c1 =>
    let c2 := if f then limpa_cifra_cell c1 else c1
    let c3 := if j then limpa_cpf_cnpj_cell c2 else c2
    some (prepara_latin1 c3)

/-- Option-valued `List.map`, used to propagate a raised error out of a
column transform. -/
def mapO {α β : Type} (f : α → Option β) : List α → Option (List β)
  | [] => some []
  | a :: t => (f a).bind (fun b => (mapO f t).map (fun bt => b :: bt))

/-- A dataframe: named columns of cells. -/
abbrev Df : Type := List (String × List Cell)

/-- `sanitiza_df` (componentes.py): per-column typed parsing followed by the
table-wide charset pass; `none` models a raised error. -/
def sanitiza_df (parseDate : String → Option ℚ) : Df → Option Df
  | [] => some []
  | col :: t =>
    ((mapO (sanitizeCell (isDataName col.1) (isCifraName col.1)
        (isCnpjName col.1) parseDate) col.2).map
          (fun cells => (col.1, cells))).bind
      (fun b => (sanitiza_df parseDate t).map (fun l => b :: l))

/-- No en/em dash in a string cell (`True` on other cells): the hypothesis
under which the second sanitisation pass is the identity. -/
def noDashCell : Cell → Bool
  | .str s => s.data.all (fun c => (c != ('–' : Char)) && (c != ('—' : Char)))
  | _ => true

/-! ### Adjudication derivation (componentes.py lines 351-353 and 369-405)

`Item.adjudicado` tests membership of the exact string `"Adjudicado"` among
the event descriptions; `Item.adjudicacao` takes the first event row whose
description equals `"Adjudicado"` (`df.loc[...]` then `.iloc[0]`) and
extracts the three fields from its observation with `re.findall(...)[0]`.

The two patterns `Fornecedor:\s*(.*?),` and `CNPJ\x2fCPF:\s*(.*?),` are
embedded by `extractLabel`: it scans left to right for the literal label,
consumes the greedy whitespace run, and captures minimally up to the next
comma; because `.` does not match a newline, an occurrence with a newline
before the next comma fails and scanning continues at the next character.
The value pattern `R\$\s*([\d\.,]+\d)` is embedded by `extractValor`: after
`R$` and whitespace the greedy character class takes the maximal run of
digits, dots and commas, and backtracking trims trailing non-digits; the
match needs at least two characters. -/

/-- Minimal capture of `(.*?),`: the characters before the next comma,
failing if a newline appears first (regex `.` does not match `\n`). -/
def captureToComma (l : List Char) : Option (List Char) :=
  let cap := l.takeWhile (fun c => (c != (',' : Char)) && (c != ('\n' : Char)))
  if (l.drop cap.length).head? = some (',' : Char) then some cap else none

/-- First match of `label\s*(.*?),` in the list, scanning left to right. -/
def extractLabel (pat : List Char) : List Char → Option (List Char)
  | [] => none
  | c :: rest =>
    match
      (if pat.isPrefixOf (c :: rest) then
        captureToComma (((c :: rest).drop pat.length).dropWhile isPySpace)
      else none) with
    | some cap => some cap
    | none => extractLabel pat rest

/-- Character class `[\d\.,]` of the value pattern. -/
def isCifraChar (c : Char) : Bool :=
  c.isDigit || (c == ('.' : Char)) || (c == (',' : Char))

/-- First match of `R\$\s*([\d\.,]+\d)` in the list, scanning left to
right. -/
def extractValor : List Char → Option (List Char)
  | [] => none
  | [_] => none
  | c :: d :: rest =>
    match
      (if (c == ('R' : Char)) && (d == ('$' : Char)) then
        let run := (rest.dropWhile isPySpace).takeWhile isCifraChar
        let cap := (run.reverse.dropWhile (fun x => !(x.isDigit))).reverse
        if 2 ≤ cap.length then some cap else none
      else none) with
    | some cap => some cap
    | none => extractValor (d :: rest)

/-- One row of an item's event log (the columns `adjudicacao` reads). -/
structure Evento where
  descricao : String
  observacao : String
deriving DecidableEq

/-- The derived `Vencedor` namedtuple, restricted to the fields the claims
are about (winner name, winner tax id, awarded value, plus the raw
observation). -/
structure Vencedor where
  observacao : String
  nome : Option String
  cnpj : Option String
  valor : Option ℚ
deriving DecidableEq

/-- `Item.adjudicado`: is some event description exactly `"Adjudicado"`. -/
def adjudicado (eventos : List Evento) : Bool :=
  eventos.any (fun e => e.descricao == ("Adjudicado" : String))

/-- `Item.adjudicacao`: on the first `"Adjudicado"` event, best-effort field
extraction from its observation; each failed extraction yields a missing
field (for the value, `limpa_cifra` of a non-match is also `nan`). -/
def adjudicacao (eventos : List Evento) : Option Vencedor :=
  if adjudicado eventos then
    match eventos.find? (fun e => e.descricao == ("Adjudicado" : String)) with
    | some e =>
      some
        { observacao := e.observacao
          nome := (extractLabel ("Fornecedor:".data) e.observacao.data).map String.mk
          cnpj := (extractLabel ("CNPJ/CPF:".data) e.observacao.data).map
            (fun l => String.mk (cpfFilter l))
          valor := (extractValor e.observacao.data).bind
            (fun l => limpa_cifra_chars l) }
    | none => none
  else none

/-! ### Pagination (componentes.py: `_offsets` and `partes`)

`Uasg._offsets`, `Pregao._offsets` and `Item._offsets` all compute
`[i * 500 for i in range(self.num_partes // 500 + 1)]`.  `Uasg.partes` and
`Item.partes` fetch one CSV per offset only under an `if self.num_partes:`
guard; `Pregao.partes` has no such guard and always loops over the offsets.
The models below return the list of offsets actually fetched together with
the concatenation of the fetched pages in offset order; the id-column
augmentation and sanitisation applied to the assembled table do not affect
the fetch log or row multiset and are modelled separately. -/

/-- `Uasg._offsets` (componentes.py lines 200-204). -/
def Uasg_offsets (numPartes : Nat) : List Nat :=
  (List.range (numPartes / 500 + 1)).map (fun i => i * 500)

/-- `Pregao._offsets` (componentes.py lines 255-259). -/
def Pregao_offsets (numPartes : Nat) : List Nat :=
  (List.range (numPartes / 500 + 1)).map (fun i => i * 500)

/-- `Item._offsets` (componentes.py lines 332-336). -/
def Item_offsets (numPartes : Nat) : List Nat :=
  (List.range (numPartes / 500 + 1)).map (fun i => i * 500)

/-- `Uasg.partes` fetch behaviour: offsets fetched and rows assembled, with
the `if self.num_partes:` guard. -/
def Uasg_partes {Row : Type} (numPartes : Nat) (page : Nat → List Row) :
    List Nat × List Row :=
  if numPartes ≠ 0 then
    (Uasg_offsets numPartes, (Uasg_offsets numPartes).map page |>.flatten)
  else ([], [])

/-- `Pregao.partes` fetch behaviour: no zero-count guard, the offset loop
always runs. -/
def Pregao_partes {Row : Type} (numPartes : Nat) (page : Nat → List Row) :
    List Nat × List Row :=
  (Pregao_offsets numPartes, (Pregao_offsets numPartes).map page |>.flatten)

/-- `Item.partes` fetch behaviour, with the `if self.num_partes:` guard. -/
def Item_partes {Row : Type} (numPartes : Nat) (page : Nat → List Row) :
    List Nat × List Row :=
  if numPartes ≠ 0 then
    (Item_offsets numPartes, (Item_offsets numPartes).map page |>.flatten)
  else ([], [])

/-! ### The fetch client `request` (componentes.py lines 17-31)

`requests.get` signals transport failure by raising
`requests.exceptions.ConnectionError` or `requests.exceptions.Timeout`.
Both derive from `RequestException` but neither is a subclass of
`requests.exceptions.HTTPError` (which only `Response.raise_for_status`
raises), so the `except HTTPError` clause catches neither. -/

/-- Outcome of the underlying `requests.get` call. -/
inductive TransportOutcome where
  | success
  | httpError
  | connectionError
  | timeout
deriving DecidableEq

/-- Exception classes relevant to `request`'s `try/except`. -/
inductive PyExcClass where
  | HTTPError
  | ConnectionError
  | Timeout
deriving DecidableEq

/-- The exception raised by `requests.get` for each failing outcome. -/
def raisedBy : TransportOutcome → Option PyExcClass
  | .success => none
  | .httpError => some .HTTPError
  | .connectionError => some .ConnectionError
  | .timeout => some .Timeout

/-- `issubclass(e, HTTPError)` for the classes above: in `requests`,
`ConnectionError` and `Timeout` are siblings of `HTTPError`, not
subclasses. -/
def isHTTPError : PyExcClass → Bool
  | .HTTPError => true
  | .ConnectionError => false
  | .Timeout => false

/-- Result of `request` as seen by its caller. -/
inductive RequestResult where
  | response
  | failureMarker
  | raised (e : PyExcClass)
deriving DecidableEq

/-- `request` (componentes.py): `try: requests.get(...) except HTTPError:
return False else: return resp`.  An exception the `except` clause does not
match propagates to the caller. -/
def request (o : TransportOutcome) : RequestResult :=
  match raisedBy o with
  | none => .response
  | some e => if isHTTPError e then .failureMarker else .raised e

/-! ### Worker pools and `download_item` (getdata.py)

`concurrent.futures.ThreadPoolExecutor(max_workers)` raises `ValueError`
when `max_workers <= 0`; with `N` submitted tasks it runs `min(max_workers,
N)` threads.  `download_pregao` builds its pool from `min(MAX_WORKERS_ITENS,
num_itens)` with no zero guard; `download_uasg` only builds its pool inside
an `if num_pregoes != 0:` guard.  `download_item` returns `None` when the
item has no proposals, and `download_pregao`'s aggregation loop subscripts
each worker result (`p.result()[0]`), which raises `TypeError` on `None`. -/

/-- Python errors raised in the modelled fragment of getdata.py. -/
inductive PyError where
  | valueError
  | typeError
deriving DecidableEq

/-- `MAX_WORKERS_ITENS` (config.py). -/
def MAX_WORKERS_ITENS : Nat := 10

/-- `MAX_WORKERS_PREGOES` (config.py). -/
def MAX_WORKERS_PREGOES : Nat := 10

/-- `ThreadPoolExecutor(w)`: `ValueError` when `w = 0`, otherwise a pool of
`w` workers (returned as its worker count). -/
def threadPoolExecutor (maxWorkers : Nat) : Except PyError Nat :=
  if maxWorkers = 0 then .error .valueError else .ok maxWorkers

/-- `download_item` (getdata.py lines 69-89): `None` when `item.num_partes`
is zero, otherwise the downloaded payload. -/
def download_item {α : Type} (numPartes : Nat) (payload : α) : Option α :=
  if numPartes ≠ 0 then some payload else none

/-- The aggregation loop's `p.result()[0]` on a worker result: subscripting
`None` raises `TypeError`. -/
def subscript0 {α : Type} : Option α → Except PyError α
  | some x => .ok x
  | none => .error .typeError

/-- Except-valued `List.map`: the first raised error aborts the loop. -/
def mapE {α β : Type} (f : α → Except PyError β) :
    List α → Except PyError (List β)
  | [] => .ok []
  | a :: t =>
    match f a with
    | .error e => .error e
    | .ok b => (mapE f t).map (fun bt => b :: bt)

/-- `download_pregao`'s inner fan-out (getdata.py lines 101-117): build the
item pool from `min(MAX_WORKERS_ITENS, number of items)`, download every
item, and subscript each worker's result.  Each item is given by its
proposal count and its payload. -/
def download_pregao_items {α : Type} (items : List (Nat × α)) :
    Except PyError (List α) :=
  match threadPoolExecutor (min MAX_WORKERS_ITENS items.length) with
  | .error e => .error e
  | .ok _ => mapE (fun it => subscript0 (download_item it.1 it.2)) items

/-- The worker-pool construction of `download_pregao` alone: worker count
`min(MAX_WORKERS_ITENS, num_itens)`, no zero guard. -/
def download_pregao_pool (numItens : Nat) : Except PyError Nat :=
  threadPoolExecutor (min MAX_WORKERS_ITENS numItens)

/-- The worker-pool construction of `download_uasg` (getdata.py lines
144-168): guarded by `if num_pregoes != 0:`; `none` models the no-pool
early return. -/
def download_uasg_pool (numPregoes : Nat) : Except PyError (Option Nat) :=
  if numPregoes ≠ 0 then
    (threadPoolExecutor (min MAX_WORKERS_PREGOES numPregoes)).map some
  else .ok none

/-! ### The persistence coordinator (getdata.py: `to_sqlite` and `salva`)

One `to_sqlite` loop iteration: stage the rows into the scratch store
(`to_sql`, full replace), `ATTACH` the scratch store, `INSERT ... SELECT`
into the durable table, `commit`, `DETACH`.  Any `sqlite3.Error` is caught
inside the coroutine, which prints it and yields `0`; the success path
yields `1`.  `ATTACH` itself raises `sqlite3.OperationalError` when `db1`
is already attached, and the `except` branch contains no `DETACH`.
`salva` filters out empty tables, sends the rest one at a time, adds the
yielded values, and its own `except sqlite3.Error` sets `msg`. -/

/-- Injected `sqlite3.Error` site for one merge task: at the staging
`to_sql` call, or at the `INSERT` (after a successful `ATTACH`). -/
inductive FailPoint where
  | stage
  | insert
deriving DecidableEq

/-- One table task sent to the coordinator, with its injected fault. -/
structure MergeTask where
  nome : String
  rows : List Nat
  fail : Option FailPoint
deriving DecidableEq

/-- Coordinator-visible store state: durable table contents per name, and
whether the scratch store is currently attached as `db1`. -/
structure CoordState where
  durable : String → List Nat
  attached : Bool

/-- A durable store with every table empty. -/
def emptyStore : String → List Nat := fun _ => []

/-- One iteration of the `to_sqlite` loop body: the new store state and the
value the coroutine yields (`1` success, `0` caught `sqlite3.Error`). -/
def to_sqlite_step (st : CoordState) (t : MergeTask) : CoordState × Nat :=
  if t.fail = some FailPoint.stage then (st, 0)
  else if st.attached then (st, 0)
  else if t.fail = some FailPoint.insert then
    ({ st with attached := true }, 0)
  else
    ({ durable := fun m => if m = t.nome then st.durable m ++ t.rows
          else st.durable m
       attached := false }, 1)

/-- `grava.send(tab)` as `salva` observes it: the coroutine catches every
`sqlite3.Error` internally, so the call always returns normally. -/
def gravaSend (st : CoordState) (t : MergeTask) :
    CoordState × Except FailPoint Nat :=
  ((to_sqlite_step st t).1, .ok (to_sqlite_step st t).2)

/-- The send loop of `salva`, carrying the success counter `n` and the
error slot `msg` exactly as the code's `try/except` does. -/
def salvaLoop : CoordState → Nat → Option FailPoint → List MergeTask →
    CoordState × Nat × Option FailPoint
  | st, n, msg, [] => (st, n, msg)
  | st, n, msg, t :: rest =>
    match gravaSend st t with
    | (st1, .ok y) => salvaLoop st1 (n + y) msg rest
    | (st1, .error e) => salvaLoop st1 n (some e) rest

/-- `salva` (getdata.py lines 204-225): drop empty tables, send the rest in
order, return the final store state together with `(n, msg)`. -/
def salva (init : CoordState) (tabelas : List MergeTask) :
    CoordState × Nat × Option FailPoint :=
  salvaLoop init 0 none (tabelas.filter (fun t => t.rows.length ≠ 0))

/-! ### Concrete instances used by the claim theorems -/

/-- Three nonempty table tasks where only the second one's merge fails, with
the fault injected at the `INSERT` statement (that is, after a successful
`ATTACH`). -/
def c1Tasks : List MergeTask :=
  [⟨("t1"), [1], none⟩, ⟨("t2"), [2], some FailPoint.insert⟩,
    ⟨("t3"), [3], none⟩]

/-- The observation text of the specification's adjudication example. -/
def acmeObs : String :=
  "Fornecedor: ACME LTDA, CNPJ/CPF: 12.345.678/0001-99, ... R$ 1.234,56"

/-- An event log that contains an `"Adjudicado"` record carrying the
specification's example observation, but whose first `"Adjudicado"` record
carries a different observation. -/
def c7Eventos : List Evento :=
  [⟨("Adjudicado"), ("Fornecedor: OUTRA SA, CNPJ/CPF: 1, R$ 2,00")⟩,
    ⟨("Adjudicado"), acmeObs⟩]

/-- A one-column table whose `cnpj` column holds a string with an en dash. -/
def c8Df : Df := [(("cnpj"), [Cell.str ("1–2")])]

/-! ## Helper lemmas -/

lemma dropWhile_eq_self_of_all {p : Char → Bool} {l : List Char}
    (h : ∀ c ∈ l, p c = false) : l.dropWhile p = l := by
  cases l with
  | nil => rfl
  | cons c t =>
    rw [List.dropWhile_cons]
    simp [h c (List.mem_cons_self c t)]

lemma takeWhile_eq_self_of_all {p : Char → Bool} {l : List Char}
    (h : ∀ c ∈ l, p c = true) : l.takeWhile p = l := by
  induction l with
  | nil => rfl
  | cons c t ih =>
    rw [List.takeWhile_cons]
    simp only [h c (List.mem_cons_self c t), if_true]
    rw [ih (fun x hx => h x (List.mem_cons_of_mem c hx))]

lemma dropWhile_append_of_all {p : Char → Bool} {sp : List Char}
    (l : List Char) (h : ∀ c ∈ sp, p c = true) :
    (sp ++ l).dropWhile p = l.dropWhile p := by
  induction sp with
  | nil => rfl
  | cons c t ih =>
    rw [List.cons_append, List.dropWhile_cons]
    simp only [h c (List.mem_cons_self c t), if_true]
    exact ih (fun x hx => h x (List.mem_cons_of_mem c hx))

lemma salvaLoop_msg_none (tasks : List MergeTask) :
    ∀ (st : CoordState) (n : Nat), (salvaLoop st n none tasks).2.2 = none := by
  induction tasks with
  | nil => intro st n; rfl
  | cons t rest ih =>
    intro st n
    show (salvaLoop (to_sqlite_step st t).1 (n + (to_sqlite_step st t).2)
      none rest).2.2 = none
    exact ih (to_sqlite_step st t).1 (n + (to_sqlite_step st t).2)

lemma mapE_subscript_zero {α : Type} (items : List (Nat × α))
    (h : ∃ it ∈ items, it.1 = 0) :
    mapE (fun it => subscript0 (download_item it.1 it.2)) items =
      Except.error PyError.typeError := by
  induction items with
  | nil => simp at h
  | cons a t ih =>
    by_cases ha : a.1 = 0
    · show (match subscript0 (download_item a.1 a.2) with
        | .error e => Except.error e
        | .ok b => (mapE (fun it => subscript0 (download_item it.1 it.2)) t).map
            (fun bt => b :: bt)) = Except.error PyError.typeError
      rw [ha]
      rfl
    · rcases h with ⟨it, hmem, hz⟩
      rcases List.mem_cons.mp hmem with h1 | h2
      · exact absurd (h1 ▸ hz) ha
      · show (match subscript0 (download_item a.1 a.2) with
          | .error e => Except.error e
          | .ok b => (mapE (fun it => subscript0 (download_item it.1 it.2)) t).map
              (fun bt => b :: bt)) = Except.error PyError.typeError
        rw [show download_item a.1 a.2 = some a.2 from if_pos ha]
        rw [ih ⟨it, h2, hz⟩]
        rfl

/-! ## Claim theorems -/

/-- Claim C1.  The claim states that a store error while merging one table
leaves that table's durable contents unchanged, detaches the scratch store
if it was attached, never blocks later tables, and that for three tables
with only the second failing the success counter is 2 and the durable store
holds the first and third tables' rows.  The code's `except` branch contains
no `DETACH`, so after a post-`ATTACH` failure the scratch store stays
attached and every later `ATTACH` fails: evaluated on `c1Tasks`, the counter
is 1, the scratch store is still attached, and the third table's rows never
reach the durable store. -/
theorem salva_insert_failure_behavior :
    ((salva ⟨emptyStore, false⟩ c1Tasks).2.1 = 1) ∧
    ((salva ⟨emptyStore, false⟩ c1Tasks).1.attached = true) ∧
    ((salva ⟨emptyStore, false⟩ c1Tasks).1.durable ("t1") = [1]) ∧
    ((salva ⟨emptyStore, false⟩ c1Tasks).1.durable ("t2") = []) ∧
    ((salva ⟨emptyStore, false⟩ c1Tasks).1.durable ("t3") = []) ∧
    ((salva ⟨emptyStore, false⟩ c1Tasks).2.2 = none) := by
  refine ⟨by decide, by decide, by decide, by decide, by decide, by decide⟩

/-- Claim C5.  The claim states that a transport-level failure (connection
error or timeout) makes `request` return its failure marker.  The `except`
clause only matches `HTTPError`, which `requests.get` itself never raises;
a `ConnectionError` or `Timeout` is not an `HTTPError` subclass and
propagates to the caller instead of becoming the marker. -/
theorem request_transport_failure_behavior :
    request TransportOutcome.connectionError =
      RequestResult.raised PyExcClass.ConnectionError ∧
    request TransportOutcome.timeout =
      RequestResult.raised PyExcClass.Timeout ∧
    request TransportOutcome.connectionError ≠ RequestResult.failureMarker ∧
    request TransportOutcome.timeout ≠ RequestResult.failureMarker ∧
    request TransportOutcome.httpError = RequestResult.failureMarker := by
  refine ⟨rfl, rfl, by decide, by decide, rfl⟩

/-- Claim C9.  The claim states that `salva` returns the most recent merge
error to its caller when some merge failed.  The `to_sqlite` coroutine
catches every `sqlite3.Error` itself and yields `0`, so `grava.send` never
raises, `salva`'s own `except` clause is dead, and the returned error slot
is always the no-error marker — including on a run whose only table fails
(success counter 0). -/
theorem salva_error_swallowed_behavior :
    (∀ (init : CoordState) (tasks : List MergeTask),
      (salva init tasks).2.2 = none) ∧
    (salva ⟨emptyStore, false⟩
      [⟨("t"), [1], some FailPoint.stage⟩]).2.1 = 0 := by
  constructor
  · intro init tasks
    exact salvaLoop_msg_none (tasks.filter (fun t => t.rows.length ≠ 0)) init 0
  · decide

/-- Claim C6 counterexample.  The claim states that when a fan-out level has
zero children, no worker pool is created and an empty result is returned
without error; but `download_pregao` builds `ThreadPoolExecutor(min(10, 0))`
unguarded, and `ThreadPoolExecutor(0)` raises `ValueError`. -/
theorem inner_pool_zero_cex :
    download_pregao_pool 0 = Except.error PyError.valueError ∧
    Except.error PyError.valueError ≠
      (Except.ok 0 : Except PyError Nat) := by
  refine ⟨rfl, by decide⟩

/-- Claim C6 amended.  With N children and ceiling C = 10 at both levels,
`min(C, N)` workers are used whenever N is positive; when N = 0 the outer
level (`download_uasg`) short-circuits without creating a pool, while the
inner level (`download_pregao`) requests a zero-worker pool and raises
`ValueError` instead of returning an empty result. -/
theorem worker_pool_amended :
    (∀ numItens : Nat, 0 < numItens →
      download_pregao_pool numItens =
        Except.ok (min MAX_WORKERS_ITENS numItens)) ∧
    (∀ numPregoes : Nat, 0 < numPregoes →
      download_uasg_pool numPregoes =
        Except.ok (some (min MAX_WORKERS_PREGOES numPregoes))) ∧
    download_uasg_pool 0 = Except.ok none ∧
    download_pregao_pool 0 = Except.error PyError.valueError := by
  refine ⟨?_, ?_, rfl, rfl⟩
  · intro n hn
    have hmin : min MAX_WORKERS_ITENS n ≠ 0 := by
      simp [MAX_WORKERS_ITENS]
      omega
    simp [download_pregao_pool, threadPoolExecutor, hmin]
  · intro n hn
    have hmin : min MAX_WORKERS_PREGOES n ≠ 0 := by
      simp [Nat.min_eq_zero_iff, MAX_WORKERS_PREGOES]
      omega
    simp [download_uasg_pool, threadPoolExecutor, hmin,
      Nat.pos_iff_ne_zero.mp hn, Except.map]

/-- Claim C6 amended, witness at N = 3. -/
theorem worker_pool_amended_witness :
    download_pregao_pool 3 = Except.ok (min MAX_WORKERS_ITENS 3) ∧
    download_uasg_pool 3 = Except.ok (some (min MAX_WORKERS_PREGOES 3)) :=
  ⟨worker_pool_amended.1 3 (by decide), worker_pool_amended.2.1 3 (by decide)⟩

/-- Claim C10.  For a process containing an item whose proposal count is
zero, `download_item` returns `None`, and `download_pregao`'s aggregation
loop subscripts that `None` (`p.result()[0]`), raising `TypeError`, so the
whole process branch errors out and yields no tables — even when other
items do have proposals. -/
theorem download_pregao_zero_item_aborts :
    (∀ (α : Type) (payload : α), download_item 0 payload = none) ∧
    (∀ (items : List (Nat × Nat)), (∃ it ∈ items, it.1 = 0) →
      download_pregao_items items = Except.error PyError.typeError) := by
  constructor
  · intro α payload; rfl
  · intro items h
    have hne : items.length ≠ 0 := by
      rcases h with ⟨it, hmem, _⟩
      cases items with
      | nil => exact absurd hmem (List.not_mem_nil it)
      | cons a t => simp
    have hmin : min MAX_WORKERS_ITENS items.length ≠ 0 := by
      rw [show MAX_WORKERS_ITENS = 10 from rfl, Nat.min_def]
      split <;> omega
    show (match threadPoolExecutor (min MAX_WORKERS_ITENS items.length) with
      | .error e => Except.error e
      | .ok _ => mapE (fun it => subscript0 (download_item it.1 it.2)) items) =
        Except.error PyError.typeError
    rw [show threadPoolExecutor (min MAX_WORKERS_ITENS items.length) =
      Except.ok (min MAX_WORKERS_ITENS items.length) from if_neg hmin]
    exact mapE_subscript_zero items h

/-- Claim C10, witness: a two-item process whose second item has zero
proposals. -/
theorem download_pregao_zero_item_aborts_witness :
    download_item (0 : Nat) (5 : Nat) = none ∧
    download_pregao_items [((2 : Nat), (7 : Nat)), ((0 : Nat), (8 : Nat))] =
      Except.error PyError.typeError :=
  ⟨download_pregao_zero_item_aborts.1 Nat 5,
    download_pregao_zero_item_aborts.2 [(2, 7), (0, 8)]
      ⟨(0, 8), by decide, rfl⟩⟩

/-- Claim C4 counterexample.  The claim states that every variant issues no
page fetch when the reported child count is zero; but `Pregao.partes` has
no zero-count guard and fetches the single offset 0. -/
theorem pregao_partes_zero_cex :
    (Pregao_partes 0 (fun _ => ([] : List Nat))).1 = [0] ∧
    ([0] : List Nat) ≠ [] := by
  refine ⟨rfl, by decide⟩

/-- Claim C4 amended.  With a zero child count, `Uasg.partes` and
`Item.partes` issue no fetch and return an empty table; `Pregao.partes`
issues exactly one fetch at offset 0, and since that page of an empty
collection parses to an empty table, it also returns an empty table without
error. -/
theorem partes_zero_count_amended :
    (∀ (page : Nat → List Nat),
      Uasg_partes 0 page = ([], []) ∧ Item_partes 0 page = ([], [])) ∧
    (∀ (page : Nat → List Nat),
      (Pregao_partes 0 page).1 = [0] ∧
      (page 0 = [] → (Pregao_partes 0 page).2 = [])) := by
  constructor
  · intro page
    exact ⟨rfl, rfl⟩
  · intro page
    constructor
    · rfl
    · intro h0
      show ((Pregao_offsets 0).map page).flatten = []
      rw [show Pregao_offsets 0 = [0] from rfl]
      simp [h0]

/-- Claim C4 amended, witness with an empty page function. -/
theorem partes_zero_count_amended_witness :
    Uasg_partes 0 (fun _ => ([] : List Nat)) = ([], []) ∧
    ((fun _ => ([] : List Nat)) 0 = []) ∧
    (Pregao_partes 0 (fun _ => ([] : List Nat))).2 = [] :=
  ⟨(partes_zero_count_amended.1 (fun _ => [])).1, rfl,
    (partes_zero_count_amended.2 (fun _ => [])).2 rfl⟩

/-- Claim C2 counterexample.  The claim states that a positive child count n
leads to exactly ceil(n / 500) page fetches at offsets 0, 500, ...,
500*(ceil(n/500)-1); but `range(num_partes // 500 + 1)` yields
floor(n/500)+1 offsets, so for n = 500 the code fetches the two offsets
[0, 500] while ceil(500/500) = 1. -/
theorem offsets_multiple_of_500_cex :
    Uasg_offsets 500 = [0, 500] ∧ (500 + 499) / 500 = 1 ∧
    ([0, 500] : List Nat).length ≠ 1 := by
  refine ⟨by decide, by decide, by decide⟩

/-- Claim C2 amended.  For every child count n the three `_offsets` methods
agree and produce floor(n/500)+1 offsets, the i-th offset being 500*i; this
equals ceil(n/500) = (n+499)/500 exactly when 500 does not divide n (for
positive multiples of 500 one extra, empty page is fetched).  For positive
n, `partes` fetches precisely those offsets and concatenates the fetched
pages in offset order; for count 1200 the offsets are exactly
[0, 500, 1000]. -/
theorem pagination_amended :
    (∀ n : Nat, (Uasg_offsets n).length = n / 500 + 1 ∧
      Pregao_offsets n = Uasg_offsets n ∧ Item_offsets n = Uasg_offsets n) ∧
    (∀ n : Nat, 0 < n → ¬ (500 ∣ n) →
      (Uasg_offsets n).length = (n + 499) / 500) ∧
    (∀ (n i : Nat) (hi : i < (Uasg_offsets n).length),
      (Uasg_offsets n).get ⟨i, hi⟩ = i * 500) ∧
    (∀ (n : Nat) (page : Nat → List Nat), 0 < n →
      Uasg_partes n page =
        (Uasg_offsets n, ((Uasg_offsets n).map page).flatten) ∧
      Item_partes n page =
        (Item_offsets n, ((Item_offsets n).map page).flatten)) ∧
    (∀ (page : Nat → List Nat),
      Pregao_partes 1200 page =
        (Pregao_offsets 1200, ((Pregao_offsets 1200).map page).flatten)) ∧
    Uasg_offsets 1200 = [0, 500, 1000] := by
  refine ⟨?_, ?_, ?_, ?_, fun page => rfl, by decide⟩
  · intro n
    refine ⟨?_, rfl, rfl⟩
    simp [Uasg_offsets]
  · intro n hn hdvd
    have hmod : n % 500 ≠ 0 := fun h =>
      hdvd (Nat.dvd_of_mod_eq_zero h)
    have hlen : (Uasg_offsets n).length = n / 500 + 1 := by
      simp [Uasg_offsets]
    rw [hlen]
    omega
  · intro n i hi
    simp [Uasg_offsets, List.get_eq_getElem, List.getElem_map,
      List.getElem_range]
  · intro n page hn
    constructor
    · simp [Uasg_partes, Nat.pos_iff_ne_zero.mp hn]
    · simp [Item_partes, Nat.pos_iff_ne_zero.mp hn]

/-- Claim C2 amended, witness at n = 1200 and i = 2. -/
theorem pagination_amended_witness :
    (0 : Nat) < 1200 ∧ ¬ ((500 : Nat) ∣ 1200) ∧
    (Uasg_offsets 1200).length = (1200 + 499) / 500 ∧
    (Uasg_offsets 1200).get ⟨2, by decide⟩ = 2 * 500 ∧
    Uasg_partes 1200 (fun _ => ([] : List Nat)) =
      (Uasg_offsets 1200, ((Uasg_offsets 1200).map (fun _ => [])).flatten) :=
  ⟨by decide, by decide,
    pagination_amended.2.1 1200 (by decide) (by decide),
    pagination_amended.2.2.1 1200 2 (by decide),
    (pagination_amended.2.2.2.1 1200 (fun _ => []) (by decide)).1⟩

/-! ## Character lemmas for `limpa_cifra` -/

lemma space_char_facts {c : Char} (h : isPySpace c = true) :
    (c == (',' : Char)) = false ∧ (c == ('.' : Char)) = false ∧
    (c == ('R' : Char)) = false := by
  simp only [isPySpace, Bool.or_eq_true, beq_iff_eq] at h
  rcases h with ((((h | h) | h) | h) | h) | h <;> subst h <;> decide

lemma digit_char_facts {c : Char} (h : c.isDigit = true) :
    (c == ('R' : Char)) = false ∧ (c == (',' : Char)) = false ∧
    (c == ('.' : Char)) = false ∧ isPySpace c = false ∧
    (c == ('+' : Char)) = false ∧ (c == ('-' : Char)) = false := by
  refine ⟨?_, ?_, ?_, ?_, ?_, ?_⟩
  · by_cases hc : c = ('R' : Char)
    · subst hc; exact absurd h (by decide)
    · exact beq_eq_false_iff_ne.mpr hc
  · by_cases hc : c = (',' : Char)
    · subst hc; exact absurd h (by decide)
    · exact beq_eq_false_iff_ne.mpr hc
  · by_cases hc : c = ('.' : Char)
    · subst hc; exact absurd h (by decide)
    · exact beq_eq_false_iff_ne.mpr hc
  · cases hps : isPySpace c with
    | false => rfl
    | true =>
      simp only [isPySpace, Bool.or_eq_true, beq_iff_eq] at hps
      rcases hps with ((((hc | hc) | hc) | hc) | hc) | hc <;> subst hc <;>
        exact absurd h (by decide)
  · by_cases hc : c = ('+' : Char)
    · subst hc; exact absurd h (by decide)
    · exact beq_eq_false_iff_ne.mpr hc
  · by_cases hc : c = ('-' : Char)
    · subst hc; exact absurd h (by decide)
    · exact beq_eq_false_iff_ne.mpr hc

lemma stripA_cons_cons (c d : Char) (rest : List Char) :
    stripCifraA (c :: d :: rest) =
      if (c == ('R' : Char)) && (d == ('$' : Char)) then stripCifraGo true rest
      else c :: stripCifraA (d :: rest) := by
  show stripCifraGo false (c :: d :: rest) = _
  rw [stripCifraGo]
  simp only [Bool.false_and, Bool.false_eq_true, if_false]
  rfl

lemma stripA_cons_of_ne_R {c : Char} (rest : List Char)
    (h : (c == ('R' : Char)) = false) :
    stripCifraA (c :: rest) = c :: stripCifraA rest := by
  cases rest with
  | nil => rfl
  | cons d r =>
    rw [stripA_cons_cons]
    simp [h]

lemma stripA_eq_self {l : List Char}
    (h : ∀ c ∈ l, (c == ('R' : Char)) = false) : stripCifraA l = l := by
  induction l with
  | nil => rfl
  | cons c t ih =>
    rw [stripA_cons_of_ne_R t (h c (List.mem_cons_self c t))]
    rw [ih (fun x hx => h x (List.mem_cons_of_mem c hx))]

lemma stripB_eq_stripA_dropWhile (l : List Char) :
    stripCifraGo true l = stripCifraA (l.dropWhile isPySpace) := by
  induction l with
  | nil => rfl
  | cons c t ih =>
    cases t with
    | nil =>
      by_cases hs : isPySpace c
      · show (if true && isPySpace c then [] else [c]) = _
        rw [List.dropWhile_cons]
        simp only [hs, Bool.true_and, if_true]
        rfl
      · show (if true && isPySpace c then [] else [c]) = _
        rw [List.dropWhile_cons]
        simp only [hs, Bool.true_and, Bool.false_eq_true, if_false]
        rfl
    | cons d r =>
      rw [stripCifraGo, List.dropWhile_cons]
      by_cases hR : ((c == ('R' : Char)) && (d == ('$' : Char))) = true
      · have hc : c = ('R' : Char) :=
          beq_iff_eq.mp (Bool.and_elim_left hR)
        have hs : isPySpace c = false := by subst hc; decide
        rw [hR, hs]
        simp only [if_true, Bool.false_eq_true, if_false]
        rw [stripA_cons_cons, if_pos hR]
      · rw [Bool.eq_false_iff.mpr hR]
        by_cases hs : isPySpace c
        · simp only [Bool.false_eq_true, if_false, hs, Bool.true_and, if_true]
          rw [ih]
        · simp only [Bool.false_eq_true, if_false, hs, Bool.true_and]
          rw [stripA_cons_cons, if_neg hR]
          rfl

lemma stripA_append_spaces (sp l : List Char)
    (h : ∀ c ∈ sp, isPySpace c = true) :
    stripCifraA (sp ++ l) = sp ++ stripCifraA l := by
  induction sp with
  | nil => rfl
  | cons c t ih =>
    have hc := h c (List.mem_cons_self c t)
    rw [List.cons_append, stripA_cons_of_ne_R _ (space_char_facts hc).2.2,
      ih (fun x hx => h x (List.mem_cons_of_mem c hx)), List.cons_append]

lemma pyFloat_space_prefix (sp u : List Char)
    (h : ∀ c ∈ sp, isPySpace c = true) : pyFloat (sp ++ u) = pyFloat u := by
  have ht : trimPy (sp ++ u) = trimPy u := by
    unfold trimPy
    rw [dropWhile_append_of_all u h]
  rw [pyFloat, pyFloat, ht]

lemma filter_sep_spaces {sp : List Char} (h : ∀ c ∈ sp, isPySpace c = true) :
    sp.filter (fun c => (c == (',' : Char)) || (c == ('.' : Char))) = [] := by
  rw [List.filter_eq_nil_iff]
  intro c hc
  have hf := space_char_facts (h c hc)
  simp [hf.1, hf.2.1]

lemma filter_ne_dot_spaces {sp : List Char}
    (h : ∀ c ∈ sp, isPySpace c = true) :
    sp.filter (fun c => c != ('.' : Char)) = sp := by
  rw [List.filter_eq_self]
  intro c hc
  simp only [bne_iff_ne, ne_eq, decide_not]
  exact beq_eq_false_iff_ne.mp (space_char_facts (h c hc)).2.1

lemma filter_ne_comma_spaces {sp : List Char}
    (h : ∀ c ∈ sp, isPySpace c = true) :
    sp.filter (fun c => c != (',' : Char)) = sp := by
  rw [List.filter_eq_self]
  intro c hc
  simp only [bne_iff_ne, ne_eq, decide_not]
  exact beq_eq_false_iff_ne.mp (space_char_facts (h c hc)).1

lemma map_commify_spaces {sp : List Char}
    (h : ∀ c ∈ sp, isPySpace c = true) :
    sp.map (fun c => if c == (',' : Char) then ('.' : Char) else c) = sp := by
  induction sp with
  | nil => rfl
  | cons c t ih =>
    rw [List.map_cons, ih (fun x hx => h x (List.mem_cons_of_mem c hx))]
    rw [(space_char_facts (h c (List.mem_cons_self c t))).1]
    simp

lemma limpa_cifra_strip_prefix (l : List Char) :
    limpa_cifra_chars (('R' : Char) :: ('$' : Char) :: (' ' : Char) :: l) =
      limpa_cifra_chars l := by
  have hsp : ∀ c ∈ l.takeWhile isPySpace, isPySpace c = true :=
    fun c hc => List.mem_takeWhile_imp hc
  have hA1 : stripCifraA (('R' : Char) :: ('$' : Char) :: (' ' : Char) :: l) =
      stripCifraA (l.dropWhile isPySpace) := by
    rw [stripA_cons_cons, if_pos (by decide), stripB_eq_stripA_dropWhile,
      List.dropWhile_cons]
    simp only [show isPySpace (' ' : Char) = true from rfl, if_true]
  have hA2 : stripCifraA l =
      l.takeWhile isPySpace ++ stripCifraA (l.dropWhile isPySpace) := by
    conv_lhs => rw [← List.takeWhile_append_dropWhile (p := isPySpace) (l := l)]
    exact stripA_append_spaces _ _ hsp
  simp only [limpa_cifra_chars, hA1, hA2]
  rw [List.filter_append, filter_sep_spaces hsp, List.nil_append]
  by_cases hsep :
      (((stripCifraA (l.dropWhile isPySpace)).filter
        (fun c => (c == (',' : Char)) || (c == ('.' : Char)))).getLast?.getD
          ('.' : Char) == (',' : Char)) = true
  · rw [if_pos hsep, if_pos hsep, List.filter_append, filter_ne_dot_spaces hsp,
      List.map_append, map_commify_spaces hsp,
      pyFloat_space_prefix _ _ hsp]
  · rw [if_neg hsep, if_neg hsep, List.filter_append,
      filter_ne_comma_spaces hsp, pyFloat_space_prefix _ _ hsp]

lemma parseUnsigned_digits (l : List Char) (hne : l ≠ [])
    (hd : ∀ c ∈ l, c.isDigit = true) :
    parseUnsigned l = some (mkRat (digitsToNat l) 1) := by
  have htake : l.takeWhile Char.isDigit = l := takeWhile_eq_self_of_all hd
  have hempty : l.isEmpty = false := by
    cases l with
    | nil => exact absurd rfl hne
    | cons c t => rfl
  simp only [parseUnsigned, htake, List.drop_length, hempty,
    Bool.false_eq_true, if_false]

lemma pyFloat_digits (l : List Char) (hne : l ≠ [])
    (hd : ∀ c ∈ l, c.isDigit = true) :
    pyFloat l = some (mkRat (digitsToNat l) 1) := by
  have hns : ∀ c ∈ l, isPySpace c = false :=
    fun c hc => (digit_char_facts (hd c hc)).2.2.2.1
  have ht : trimPy l = l := by
    unfold trimPy
    rw [dropWhile_eq_self_of_all hns,
      dropWhile_eq_self_of_all (fun c hc => hns c (List.mem_reverse.mp hc)),
      List.reverse_reverse]
  cases l with
  | nil => exact absurd rfl hne
  | cons c t =>
    have hfc := digit_char_facts (hd c (List.mem_cons_self c t))
    have hplus : ¬ ((c :: t).head? = some ('+' : Char)) := by
      simp only [List.head?_cons, Option.some.injEq]
      exact beq_eq_false_iff_ne.mp hfc.2.2.2.2.1
    have hminus : ¬ ((c :: t).head? = some ('-' : Char)) := by
      simp only [List.head?_cons, Option.some.injEq]
      exact beq_eq_false_iff_ne.mp hfc.2.2.2.2.2
    rw [pyFloat]
    simp only [ht]
    rw [if_neg hplus, if_neg hminus]
    exact parseUnsigned_digits _ hne hd

lemma limpa_cifra_digits (l : List Char) (hne : l ≠ [])
    (hd : ∀ c ∈ l, c.isDigit = true) :
    limpa_cifra_chars l = some (mkRat (digitsToNat l) 1) := by
  have hA : stripCifraA l = l :=
    stripA_eq_self (fun c hc => (digit_char_facts (hd c hc)).1)
  have hseps : l.filter
      (fun c => (c == (',' : Char)) || (c == ('.' : Char))) = [] := by
    rw [List.filter_eq_nil_iff]
    intro c hc
    have hf := digit_char_facts (hd c hc)
    simp [hf.2.1, hf.2.2.1]
  have hfilter : l.filter (fun c => c != (',' : Char)) = l := by
    rw [List.filter_eq_self]
    intro c hc
    simp only [bne_iff_ne, ne_eq, decide_not]
    exact beq_eq_false_iff_ne.mp (digit_char_facts (hd c hc)).2.1
  simp only [limpa_cifra_chars, hA, hseps]
  rw [if_neg (by decide), hfilter]
  exact pyFloat_digits _ hne hd

/-- Claim C3 counterexample.  The claim states that `"R$ 3.000"` parses to
3000.0; but the code treats the last `.` as the decimal separator (and its
own docstring states that `"3.000"` yields 3.0), so the result is 3. -/
theorem limpa_cifra_3000_cex :
    limpa_cifra ("R$ 3.000") = some ((3 : ℚ)) ∧
    some ((3 : ℚ)) ≠ some ((3000 : ℚ)) := by
  refine ⟨by decide, by decide⟩

/-- Claim C3 amended.  `limpa_cifra` strips a leading currency symbol,
treats the last occurrence of `,` or `.` as the decimal separator, and when
that separator is a comma removes all dots as thousands separators; when it
is a dot only commas are removed, so earlier dots stay in place and
`"R$ 3.000"` parses to 3.0 (as the code's docstring documents) while
`"R$ 2.500.00"` fails to parse.  A punctuation-free digit string parses as
a whole number, and an unparsable normalised string yields the missing
value instead of failing. -/
theorem limpa_cifra_amended :
    limpa_cifra ("R$ 2.500,00") = some ((2500 : ℚ)) ∧
    limpa_cifra ("R$ 2,500.00") = some ((2500 : ℚ)) ∧
    limpa_cifra ("R$ 3.000") = some ((3 : ℚ)) ∧
    limpa_cifra ("R$ 1.234,56") = some (mkRat 123456 100) ∧
    limpa_cifra ("R$ 2.500.00") = none ∧
    limpa_cifra ("abc") = none ∧
    (∀ l : List Char,
      limpa_cifra_chars (('R' : Char) :: ('$' : Char) :: (' ' : Char) :: l) =
        limpa_cifra_chars l) ∧
    (∀ l : List Char, l ≠ [] → (∀ c ∈ l, c.isDigit = true) →
      limpa_cifra_chars l = some (mkRat (digitsToNat l) 1)) := by
  refine ⟨by decide, by decide, by decide, by decide, by decide, by decide,
    limpa_cifra_strip_prefix, limpa_cifra_digits⟩

/-- Claim C3 amended, witness: the general clauses applied to the digit
string `42` and to the suffix `2,50`. -/
theorem limpa_cifra_amended_witness :
    ((['4', '2'] : List Char) ≠ [] ∧
      limpa_cifra_chars ['4', '2'] = some (mkRat (digitsToNat ['4', '2']) 1)) ∧
    limpa_cifra_chars
        (('R' : Char) :: ('$' : Char) :: (' ' : Char) :: ("2,50".data)) =
      limpa_cifra_chars ("2,50".data) :=
  ⟨⟨by decide, limpa_cifra_amended.2.2.2.2.2.2.2 ['4', '2'] (by decide)
      (by decide)⟩,
    limpa_cifra_amended.2.2.2.2.2.2.1 ("2,50".data)⟩

/-- Claim C7 counterexample.  The claim quantifies over every event log that
contains an `"Adjudicado"` record with the example observation; but the code
uses the first `"Adjudicado"` row (`iloc[0]`), so a log that also contains
an earlier `"Adjudicado"` record with a different observation yields that
earlier record's winner, not `"ACME LTDA"`. -/
theorem adjudicacao_first_match_cex :
    ((⟨("Adjudicado"), acmeObs⟩ : Evento) ∈ c7Eventos) ∧
    (adjudicacao c7Eventos).map Vencedor.nome = some (some ("OUTRA SA")) ∧
    some (some ("OUTRA SA")) ≠ some (some ("ACME LTDA")) := by
  refine ⟨by decide, by decide, by decide⟩

/-- Claim C7 amended.  For every item whose *first* event with description
exactly `"Adjudicado"` carries the observation `"Fornecedor: ACME LTDA,
CNPJ/CPF: 12.345.678/0001-99, ... R$ 1.234,56"`, `adjudicacao` produces a
record with winner name `"ACME LTDA"`, winner tax id `"12345678000199"` and
awarded value 1234.56; and for every item with no `"Adjudicado"` event,
`adjudicado` is false and `adjudicacao` produces no record. -/
theorem adjudicacao_amended :
    (∀ (evs : List Evento) (e : Evento),
      evs.find? (fun x => x.descricao == ("Adjudicado" : String)) = some e →
      e.observacao = acmeObs →
      adjudicacao evs = some
        { observacao := acmeObs
          nome := some ("ACME LTDA")
          cnpj := some ("12345678000199")
          valor := some (mkRat 123456 100) }) ∧
    (∀ evs : List Evento,
      (∀ e ∈ evs, e.descricao ≠ ("Adjudicado" : String)) →
      adjudicado evs = false ∧ adjudicacao evs = none) := by
  constructor
  · intro evs e hfind hobs
    have hmem : e ∈ evs := List.mem_of_find?_eq_some hfind
    have hpred := List.find?_some hfind
    have hadj : adjudicado evs = true :=
      List.any_eq_true.mpr ⟨e, hmem, hpred⟩
    unfold adjudicacao
    rw [hadj, hfind]
    simp only [if_true, hobs]
    decide
  · intro evs h
    have hadj : adjudicado evs = false := by
      apply Bool.eq_false_iff.mpr
      intro hany
      unfold adjudicado at hany
      rcases List.any_eq_true.mp hany with ⟨x, hx, hpx⟩
      exact h x hx (beq_iff_eq.mp hpx)
    refine ⟨hadj, ?_⟩
    simp only [adjudicacao, hadj, Bool.false_eq_true, if_false]

/-- Claim C7 amended, witness: a one-record log with the example observation
and a log with no `"Adjudicado"` record. -/
theorem adjudicacao_amended_witness :
    adjudicacao [(⟨("Adjudicado"), acmeObs⟩ : Evento)] = some
      { observacao := acmeObs
        nome := some ("ACME LTDA")
        cnpj := some ("12345678000199")
        valor := some (mkRat 123456 100) } ∧
    (adjudicado [(⟨("Aberto"), ("x")⟩ : Evento)] = false ∧
      adjudicacao [(⟨("Aberto"), ("x")⟩ : Evento)] = none) :=
  ⟨adjudicacao_amended.1 [⟨("Adjudicado"), acmeObs⟩]
      ⟨("Adjudicado"), acmeObs⟩ (by decide) rfl,
    adjudicacao_amended.2 [⟨("Aberto"), ("x")⟩] (by decide)⟩

/-! ## Lemmas for the sanitizer idempotence claim -/

lemma latin1Char_le (c : Char) : (latin1Char c).toNat ≤ 255 := by
  unfold latin1Char
  split
  · assumption
  · decide

lemma latin1Char_eq_self_of_le {c : Char} (h : c.toNat ≤ 255) :
    latin1Char c = c := if_pos h

lemma substChar_eq_self_of_le {c : Char} (h : c.toNat ≤ 255) :
    substChar c = [c] := by
  unfold substChar
  split_ifs with h1 h2 h3 h4 h5 h6
  · simp only [Bool.or_eq_true, beq_iff_eq] at h1
    rcases h1 with hc | hc <;> (rw [hc] at h; exact absurd h (by decide))
  · simp only [Bool.or_eq_true, beq_iff_eq] at h2
    rcases h2 with hc | hc <;> (rw [hc] at h; exact absurd h (by decide))
  · simp only [Bool.or_eq_true, beq_iff_eq] at h3
    rcases h3 with hc | hc <;> (rw [hc] at h; exact absurd h (by decide))
  · rw [beq_iff_eq.mp h4] at h; exact absurd h (by decide)
  · rw [beq_iff_eq.mp h5] at h; exact absurd h (by decide)
  · rw [beq_iff_eq.mp h6] at h; exact absurd h (by decide)
  · rfl

lemma preparaStr_cons (c : Char) (t : List Char) :
    preparaStr (c :: t) = (substChar c).map latin1Char ++ preparaStr t := by
  simp [preparaStr]

lemma preparaStr_le (l : List Char) : ∀ x ∈ preparaStr l, x.toNat ≤ 255 := by
  intro x hx
  simp only [preparaStr, List.mem_map] at hx
  rcases hx with ⟨y, _, hy⟩
  rw [← hy]
  exact latin1Char_le y

lemma preparaStr_eq_self_of_le {l : List Char}
    (h : ∀ c ∈ l, c.toNat ≤ 255) : preparaStr l = l := by
  induction l with
  | nil => rfl
  | cons c t ih =>
    have hc := h c (List.mem_cons_self c t)
    rw [preparaStr_cons, substChar_eq_self_of_le hc, List.map_cons,
      List.map_nil, latin1Char_eq_self_of_le hc,
      ih (fun x hx => h x (List.mem_cons_of_mem c hx)), List.singleton_append]

lemma preparaStr_idem (l : List Char) :
    preparaStr (preparaStr l) = preparaStr l :=
  preparaStr_eq_self_of_le (preparaStr_le l)

lemma prepara_latin1_idem (c : Cell) :
    prepara_latin1 (prepara_latin1 c) = prepara_latin1 c := by
  cases c with
  | str s =>
    show Cell.str (String.mk (preparaStr (preparaStr s.data))) =
      Cell.str (String.mk (preparaStr s.data))
    rw [preparaStr_idem]
  | num q => rfl
  | date d => rfl
  | missing => rfl

lemma mem_preparaStr {x : Char} {l : List Char} (hx : x ∈ preparaStr l) :
    ∃ c ∈ l, x ∈ (substChar c).map latin1Char := by
  simp only [preparaStr, List.mem_map, List.mem_flatten] at hx
  rcases hx with ⟨y, ⟨ys, ⟨c, hc, hcs⟩, hy⟩, hxy⟩
  exact ⟨c, hc, List.mem_map.mpr ⟨y, hcs ▸ hy, hxy⟩⟩

lemma mem_cpfFilter {x : Char} {l : List Char} (hx : x ∈ cpfFilter l) :
    x ∈ l ∧ x ≠ ('.' : Char) ∧ x ≠ ('/' : Char) ∧ x ≠ ('-' : Char) := by
  rcases List.mem_filter.mp hx with ⟨hmem, hp⟩
  simp only [Bool.not_eq_eq_eq_not, Bool.not_true, Bool.or_eq_false_iff,
    beq_eq_false_iff_ne, ne_eq] at hp
  exact ⟨hmem, hp.1.1, hp.1.2, hp.2⟩

lemma preparaStr_cpf_no_punct {l : List Char}
    (hd : ∀ c ∈ l, c ≠ ('–' : Char) ∧ c ≠ ('—' : Char)) :
    ∀ x ∈ preparaStr (cpfFilter l),
      x ≠ ('.' : Char) ∧ x ≠ ('/' : Char) ∧ x ≠ ('-' : Char) := by
  intro x hx
  rcases mem_preparaStr hx with ⟨c, hcmem, hxc⟩
  rcases mem_cpfFilter hcmem with ⟨hcl, hc1, hc2, hc3⟩
  have hdc := hd c hcl
  revert hxc
  unfold substChar
  split_ifs with h1 h2 h3 h4 h5 h6 <;> intro hxc
  · simp only [List.map_cons, List.map_nil, List.mem_singleton] at hxc
    subst hxc; decide
  · simp only [List.map_cons, List.map_nil, List.mem_singleton] at hxc
    subst hxc; decide
  · exfalso
    simp only [Bool.or_eq_true, beq_iff_eq] at h3
    rcases h3 with hc | hc
    · exact hdc.1 hc
    · exact hdc.2 hc
  · simp only [List.map_cons, List.map_nil, List.mem_cons,
      List.not_mem_nil, or_false] at hxc
    rcases hxc with hxc | hxc <;> (subst hxc; decide)
  · simp only [List.map_cons, List.map_nil, List.mem_singleton] at hxc
    subst hxc; decide
  · simp only [List.map_cons, List.map_nil, List.mem_singleton] at hxc
    subst hxc; decide
  · simp only [List.map_cons, List.map_nil, List.mem_singleton] at hxc
    subst hxc
    unfold latin1Char
    split
    · exact ⟨hc1, hc2, hc3⟩
    · decide

lemma cpfFilter_eq_self_of_no_punct {m : List Char}
    (h : ∀ x ∈ m, x ≠ ('.' : Char) ∧ x ≠ ('/' : Char) ∧ x ≠ ('-' : Char)) :
    cpfFilter m = m := by
  rw [cpfFilter, List.filter_eq_self]
  intro x hx
  rcases h x hx with ⟨h1, h2, h3⟩
  simp [beq_eq_false_iff_ne.mpr h1, beq_eq_false_iff_ne.mpr h2,
    beq_eq_false_iff_ne.mpr h3]

lemma noDash_of_cell {s : String} (h : noDashCell (Cell.str s) = true) :
    ∀ c ∈ s.data, c ≠ ('–' : Char) ∧ c ≠ ('—' : Char) := by
  unfold noDashCell at h
  intro c hc
  have hp := List.all_eq_true.mp h c hc
  simp only [Bool.and_eq_true] at hp
  exact ⟨bne_iff_ne.mp hp.1, bne_iff_ne.mp hp.2⟩

lemma sanitizeCell_idem (d f j : Bool) (pd : String → Option ℚ)
    (c c1 : Cell) (hj : j = true → noDashCell c = true)
    (h : sanitizeCell d f j pd c = some c1) :
    sanitizeCell d f j pd c1 = some c1 := by
  cases c with
  | missing =>
    cases d <;> cases f <;> cases j <;> (injection h with h1; rw [← h1]; rfl)
  | num q =>
    cases d <;> cases f <;> cases j <;> (injection h with h1; rw [← h1]; rfl)
  | date t =>
    cases d <;> cases f <;> cases j <;> (injection h with h1; rw [← h1]; rfl)
  | str s =>
    cases d with
    | true =>
      have h' : (match (pd s).map Cell.date with
          | none => (none : Option Cell)
          | some c2 =>
            some (prepara_latin1
              (if j = true then
                limpa_cpf_cnpj_cell (if f = true then limpa_cifra_cell c2 else c2)
              else if f = true then limpa_cifra_cell c2 else c2))) =
          some c1 := h
      cases hpd : pd s with
      | none =>
        rw [hpd] at h'
        simp at h'
      | some t =>
        rw [hpd] at h'
        cases f <;> cases j <;> (injection h' with h1; rw [← h1]; rfl)
    | false =>
      cases f with
      | true =>
        have h' : (some (prepara_latin1
            (if j = true then
              limpa_cpf_cnpj_cell
                (match limpa_cifra s with
                  | some q => Cell.num q
                  | none => Cell.missing)
            else
              match limpa_cifra s with
              | some q => Cell.num q
              | none => Cell.missing)) : Option Cell) = some c1 := h
        cases hq : limpa_cifra s with
        | none =>
          rw [hq] at h'
          cases j <;> (injection h' with h1; rw [← h1]; rfl)
        | some q =>
          rw [hq] at h'
          cases j <;> (injection h' with h1; rw [← h1]; rfl)
      | false =>
        cases j with
        | true =>
          have h' : some (Cell.str (String.mk (preparaStr (cpfFilter s.data)))) =
              some c1 := h
          injection h' with h1
          rw [← h1]
          have hnd := noDash_of_cell (hj rfl)
          show some (Cell.str (String.mk
              (preparaStr (cpfFilter (preparaStr (cpfFilter s.data)))))) =
            some (Cell.str (String.mk (preparaStr (cpfFilter s.data))))
          rw [cpfFilter_eq_self_of_no_punct (preparaStr_cpf_no_punct hnd),
            preparaStr_idem]
        | false =>
          have h' : some (Cell.str (String.mk (preparaStr s.data))) =
              some c1 := h
          injection h' with h1
          rw [← h1]
          show some (Cell.str (String.mk (preparaStr (preparaStr s.data)))) =
            some (Cell.str (String.mk (preparaStr s.data)))
          rw [preparaStr_idem]

lemma mapO_sanitize_idem (d f j : Bool) (pd : String → Option ℚ)
    (cells : List Cell) :
    ∀ cells1 : List Cell,
      (j = true → ∀ c ∈ cells, noDashCell c = true) →
      mapO (sanitizeCell d f j pd) cells = some cells1 →
      mapO (sanitizeCell d f j pd) cells1 = some cells1 := by
  induction cells with
  | nil =>
    intro cells1 _ h
    injection h with h1
    rw [← h1]
    rfl
  | cons a t ih =>
    intro cells1 hj h
    rw [mapO] at h
    cases ha : sanitizeCell d f j pd a with
    | none =>
      rw [ha] at h
      simp at h
    | some b =>
      rw [ha] at h
      cases hm : mapO (sanitizeCell d f j pd) t with
      | none =>
        rw [hm] at h
        simp at h
      | some bt =>
        rw [hm] at h
        simp only [Option.some_bind, Option.map_some', Option.some.injEq] at h
        subst h
        have hb : sanitizeCell d f j pd b = some b :=
          sanitizeCell_idem d f j pd a b
            (fun hjj => hj hjj a (List.mem_cons_self a t)) ha
        have hbt : mapO (sanitizeCell d f j pd) bt = some bt :=
          ih bt (fun hjj x hx => hj hjj x (List.mem_cons_of_mem a hx)) hm
        rw [mapO, hb, hbt]
        rfl

lemma sanitiza_df_idem_aux (pd : String → Option ℚ) (df : Df) :
    ∀ df1 : Df,
      (∀ col ∈ df, isCnpjName col.1 = true →
        ∀ c ∈ col.2, noDashCell c = true) →
      sanitiza_df pd df = some df1 → sanitiza_df pd df1 = some df1 := by
  induction df with
  | nil =>
    intro df1 _ h
    injection h with h1
    rw [← h1]
    rfl
  | cons col t ih =>
    intro df1 hnd h
    rw [sanitiza_df] at h
    cases hcol : mapO (sanitizeCell (isDataName col.1) (isCifraName col.1)
        (isCnpjName col.1) pd) col.2 with
    | none =>
      rw [hcol] at h
      simp at h
    | some cells1 =>
      rw [hcol] at h
      cases ht : sanitiza_df pd t with
      | none =>
        rw [ht] at h
        simp at h
      | some t1 =>
        rw [ht] at h
        simp only [Option.map_some', Option.some_bind,
          Option.some.injEq] at h
        subst h
        have hc1 : mapO (sanitizeCell (isDataName col.1) (isCifraName col.1)
            (isCnpjName col.1) pd) cells1 = some cells1 :=
          mapO_sanitize_idem _ _ _ pd col.2 cells1
            (fun hjj c hc => hnd col (List.mem_cons_self col t) hjj c hc) hcol
        have ht1 : sanitiza_df pd t1 = some t1 :=
          ih t1 (fun col2 h2 => hnd col2 (List.mem_cons_of_mem col h2)) ht
        rw [sanitiza_df, hc1, ht1]
        rfl

/-- Claim C8 counterexample.  The claim states that `sanitiza_df` is
idempotent on every table; but a `cnpj` column cell containing an en dash
becomes `--` after one pass (the id-cleaner leaves the dash, the charset
transform rewrites it), and the second pass's id-cleaner then strips both
hyphens. -/
theorem sanitiza_df_idem_cex :
    sanitiza_df (fun _ => none) c8Df =
      some [(("cnpj"), [Cell.str ("1--2")])] ∧
    sanitiza_df (fun _ => none) [(("cnpj"), [Cell.str ("1--2")])] =
      some [(("cnpj"), [Cell.str ("12")])] ∧
    Cell.str ("1--2") ≠ Cell.str ("12") := by
  refine ⟨by decide, by decide, by decide⟩

/-- Claim C8 amended.  `sanitiza_df` applied to an already-sanitised table
returns it unchanged provided no string cell of a tax-id (`cnpj`) column
contains an en or em dash (the only characters whose charset replacement
re-introduces a hyphen that the id-cleaner would strip on the next pass);
the charset transform `prepara_latin1` itself is idempotent on every cell
and leaves every non-string cell (numbers, dates, missing markers)
unchanged. -/
theorem sanitiza_df_idem_amended :
    (∀ (pd : String → Option ℚ) (df df1 : Df),
      (∀ col ∈ df, isCnpjName col.1 = true →
        ∀ c ∈ col.2, noDashCell c = true) →
      sanitiza_df pd df = some df1 → sanitiza_df pd df1 = some df1) ∧
    (∀ c : Cell, prepara_latin1 (prepara_latin1 c) = prepara_latin1 c) ∧
    (∀ q : ℚ, prepara_latin1 (Cell.num q) = Cell.num q) ∧
    (∀ q : ℚ, prepara_latin1 (Cell.date q) = Cell.date q) ∧
    prepara_latin1 Cell.missing = Cell.missing :=
  ⟨fun pd df df1 hnd h => sanitiza_df_idem_aux pd df df1 hnd h,
    prepara_latin1_idem, fun _ => rfl, fun _ => rfl, rfl⟩

/-- Claim C8 amended, witness: a dash-free `cnpj` table sanitised twice, and
the charset transform applied twice to a string cell with an en dash. -/
theorem sanitiza_df_idem_amended_witness :
    sanitiza_df (fun _ => none) [(("cnpj"), [Cell.str ("12")])] =
      some [(("cnpj"), [Cell.str ("12")])] ∧
    prepara_latin1 (prepara_latin1 (Cell.str ("a–b"))) =
      prepara_latin1 (Cell.str ("a–b")) ∧
    prepara_latin1 (Cell.num ((7 : ℚ))) = Cell.num ((7 : ℚ)) :=
  ⟨sanitiza_df_idem_amended.1 (fun _ => none)
      [(("cnpj"), [Cell.str ("12")])] [(("cnpj"), [Cell.str ("12")])]
      (by decide) (by decide),
    sanitiza_df_idem_amended.2.1 (Cell.str ("a–b")),
    sanitiza_df_idem_amended.2.2.1 7⟩
